import Mathlib

/-!
# Verification of the safety-factor calculator in `js/script.js`

Shallow embedding of the core logic of the repository's water-level
safety-factor page: the ECMAScript `parseFloat` builtin as called by
`calculateSafetyFactor`, the three validation checks, the three derived
quantities, the tier classification of `updateSafetyFactorDisplay`, and the
keystroke input sanitizer.  JavaScript numbers are modelled exactly: a value
is NaN, +Infinity, -Infinity, or a finite value carried as a rational
(IEEE-754 rounding is idealised away; every arithmetic step of the source is
a single division or subtraction on values the program has range-checked).
-/

namespace WebsiteIdea

/-- A JavaScript number as the calculator can observe it: `NaN`, `Infinity`,
`-Infinity`, or a finite value, modelled exactly as a rational. -/
inductive JSNum where
  | nan : JSNum
  | inf : JSNum
  | neginf : JSNum
  | fin : ℚ → JSNum
deriving DecidableEq, Repr

/-- The `isNaN(x)` test of script.js line 62. -/
def jsIsNaN : JSNum → Bool
  | .nan => true
  | _ => false

/-- The JavaScript comparison `x <= 0` of script.js line 67
(false on NaN, true on `-Infinity`). -/
def jsLeZero : JSNum → Bool
  | .nan => false
  | .inf => false
  | .neginf => true
  | .fin q => decide (q ≤ 0)

/-- The JavaScript comparison `x > 100` of script.js line 72
(false on NaN, true on `Infinity`). -/
def jsGtHundred : JSNum → Bool
  | .nan => false
  | .inf => true
  | .neginf => false
  | .fin q => decide (100 < q)

/-- JavaScript division `x / y` on the number model (IEEE special-value
rules; the sign of zero is not tracked, which the calculator never
observes since its divisors are range-checked positive). -/
def jsDiv : JSNum → JSNum → JSNum
  | .nan, _ => .nan
  | _, .nan => .nan
  | .inf, .inf => .nan
  | .inf, .neginf => .nan
  | .neginf, .inf => .nan
  | .neginf, .neginf => .nan
  | .inf, .fin q => if q < 0 then .neginf else .inf
  | .neginf, .fin q => if q < 0 then .inf else .neginf
  | .fin _, .inf => .fin 0
  | .fin _, .neginf => .fin 0
  | .fin a, .fin b =>
      if b = 0 then (if a = 0 then .nan else if a < 0 then .neginf else .inf)
      else .fin (a / b)

/-- JavaScript subtraction `x - y` on the number model. -/
def jsSub : JSNum → JSNum → JSNum
  | .nan, _ => .nan
  | _, .nan => .nan
  | .inf, .inf => .nan
  | .inf, _ => .inf
  | .neginf, .neginf => .nan
  | .neginf, _ => .neginf
  | .fin _, .inf => .neginf
  | .fin _, .neginf => .inf
  | .fin a, .fin b => .fin (a - b)

/-! ## parseFloat (ECMA-262), as called at script.js lines 58-59 -/

/-- ECMAScript whitespace stripped by `parseFloat` (the ASCII part; the
calculator's sanitized fields cannot contain the Unicode cases). -/
def isWhite (c : Char) : Bool :=
  c == ' ' || c == '\t' || c == '\n' || c == '\r' || c == '\x0b' || c == '\x0c'

/-- Longest run of decimal digits at the front, and the rest. -/
def takeDigits : List Char → List Char × List Char
  | [] => ([], [])
  | c :: cs =>
      if c.isDigit then
        let p := takeDigits cs
        (c :: p.1, p.2)
      else ([], c :: cs)

/-- Numeric value of a digit run. -/
def digitsToNat (ds : List Char) : Nat :=
  ds.foldl (fun n c => 10 * n + (c.toNat - 48)) 0

/-- The optional `ExponentPart` of `StrDecimalLiteral`: consumed only when a
well-formed `e`/`E`, optional sign, and at least one digit follow (longest
valid prefix rule); otherwise contributes exponent 0. -/
def parseExp (cs : List Char) : Int :=
  match cs with
  | c :: cs1 =>
      if c == 'e' || c == 'E' then
        match cs1 with
        | s :: cs2 =>
            if s == '+' || s == '-' then
              let p := takeDigits cs2
              if p.1.isEmpty then 0
              else if s == '-' then -(digitsToNat p.1 : Int) else (digitsToNat p.1 : Int)
            else
              let p := takeDigits cs1
              if p.1.isEmpty then 0 else (digitsToNat p.1 : Int)
        | [] => 0
      else 0
  | [] => 0

/-- Value of an unsigned mantissa `ip . fp`. -/
def mantissaVal (ip fp : List Char) : ℚ :=
  (digitsToNat ip : ℚ) + (digitsToNat fp : ℚ) / (10 : ℚ) ^ fp.length

/-- The finite cases of `StrUnsignedDecimalLiteral`: digits, optional point
and fraction digits, optional exponent; `none` when no digit is present
(so no valid numeric prefix exists). -/
def parseFiniteMag (cs : List Char) : Option ℚ :=
  let ip := takeDigits cs
  match ip.2 with
  | '.' :: r2 =>
      let fp := takeDigits r2
      if ip.1.isEmpty && fp.1.isEmpty then none
      else some (mantissaVal ip.1 fp.1 * (10 : ℚ) ^ parseExp fp.2)
  | _ =>
      if ip.1.isEmpty then none
      else some ((digitsToNat ip.1 : ℚ) * (10 : ℚ) ^ parseExp ip.2)

/-- After the optional sign: the literal `Infinity`, or a finite magnitude,
or no valid prefix (NaN). -/
def parseAfterSign (neg : Bool) (r : List Char) : JSNum :=
  if ("Infinity".toList).isPrefixOf r then
    if neg then .neginf else .inf
  else
    match parseFiniteMag r with
    | some q => .fin (if neg then -q else q)
    | none => .nan

/-- The ECMAScript `parseFloat` builtin used at script.js lines 58-59:
skip whitespace, optional sign, then the longest `StrDecimalLiteral`
prefix; NaN when none exists.  Magnitudes are kept as exact rationals. -/
def parseFloatChars (cs : List Char) : JSNum :=
  match cs.dropWhile isWhite with
  | '-' :: r => parseAfterSign true r
  | '+' :: r => parseAfterSign false r
  | t => parseAfterSign false t

/-- `parseFloat` on a field's string value. -/
def jsParseFloat (s : String) : JSNum := parseFloatChars s.data

/-! ## The evaluator: `calculateSafetyFactor`, script.js lines 57-94 -/

/-- The three validation failures of `calculateSafetyFactor`, in the order
their alerts appear in the source. -/
inductive VError where
  | NotANumber : VError
  | NonPositive : VError
  | OutOfRange : VError
deriving DecidableEq, Repr

/-- The three derived quantities a successful evaluation hands to
`updateSafetyFactorDisplay`. -/
structure EvalResult where
  safetyFactor : JSNum
  safetyMargin : JSNum
  targetLevel : JSNum
deriving DecidableEq, Repr

/-- The numeric core of `calculateSafetyFactor` (script.js lines 62-88)
after the two `parseFloat` calls: the three validation checks in source
order, each returning at once, then `safetyFactor = criticalLevel /
actualLevel`, `safetyMargin = criticalLevel - actualLevel`, `targetLevel =
criticalLevel / 1.10`. -/
def evaluateNum (actualLevel criticalLevel : JSNum) : Except VError EvalResult :=
  if jsIsNaN actualLevel || jsIsNaN criticalLevel then .error .NotANumber
  else if jsLeZero actualLevel || jsLeZero criticalLevel then .error .NonPositive
  else if jsGtHundred actualLevel || jsGtHundred criticalLevel then .error .OutOfRange
  else .ok { safetyFactor := jsDiv criticalLevel actualLevel
             safetyMargin := jsSub criticalLevel actualLevel
             targetLevel := jsDiv criticalLevel (.fin (11 / 10)) }

/-- `calculateSafetyFactor`'s evaluation of the two field strings:
parse both with `parseFloat`, then validate and compute. -/
def evaluate (actualText criticalText : String) : Except VError EvalResult :=
  evaluateNum (jsParseFloat actualText) (jsParseFloat criticalText)

/-! ## Tier classification: `updateSafetyFactorDisplay`, lines 118-169 -/

/-- The three risk tiers of the display branch. -/
inductive Tier where
  | Safe : Tier
  | Warning : Tier
  | Danger : Tier
deriving DecidableEq, Repr

/-- The JavaScript comparison `fs >= q` against a numeric literal
(false on NaN). -/
def jsGe (x : JSNum) (q : ℚ) : Bool :=
  match x with
  | .nan => false
  | .inf => true
  | .neginf => false
  | .fin a => decide (q ≤ a)

/-- The branch structure of `updateSafetyFactorDisplay` (lines 118-169):
`fs >= 1.10` is Safe, else `fs >= 1.00` is Warning, else Danger. -/
def tierOf (fs : JSNum) : Tier :=
  if jsGe fs (11 / 10) then .Safe
  else if jsGe fs 1 then .Warning
  else .Danger

/-! ## The rendered results section, for the failure-atomicity contract -/

/-- The state of the results section the page renders: the last result
written by `updateSafetyFactorDisplay`, and whether `resultSection` has
been made visible (lines 87-94). -/
structure UIState where
  rendered : Option EvalResult
  resultVisible : Bool
deriving DecidableEq, Repr

/-- `calculateSafetyFactor`'s effect on the results section (lines 57-94):
each validation failure raises its alert and returns at once, leaving the
results display untouched; success renders the result and shows the
section. -/
def calculateSafetyFactor (actualText criticalText : String) (st : UIState) : UIState :=
  match evaluate actualText criticalText with
  | .error _ => st
  | .ok r => { rendered := some r, resultVisible := true }

/-! ## The input sanitizer: input listener, script.js lines 179-185 -/

/-- The character class kept by the replacement `[^0-9.] -> nothing`
(line 180). -/
def keepCh (c : Char) : Bool := c.isDigit || c == '.'

/-- JavaScript `value.split('.')` on the character list (line 183):
splits at every point, keeping empty groups (`splitDot` of a list is never
empty, so prepending to the first group via `headD`/`tail` is exact). -/
def splitDot : List Char → List (List Char)
  | [] => [[]]
  | c :: cs =>
      if c == '.' then [] :: splitDot cs
      else (c :: (splitDot cs).headD []) :: (splitDot cs).tail

/-- The input-event sanitizer (lines 179-185): strip every character
outside `[0-9.]`; then, when `parts.length > 2`, set the value to
`parts[0] + '.' + parts.slice(1).join('')`. -/
def sanitizeChars (s : List Char) : List Char :=
  let v := s.filter keepCh
  let parts := splitDot v
  if 2 < parts.length then parts.headD [] ++ '.' :: parts.tail.flatten
  else v

/-- The sanitizer on a field's string value. -/
def sanitize (s : String) : String := ⟨sanitizeChars s.data⟩

/-- The sanitizer as §4.1 of the specification words it: remove every
character that is not a digit or a point; if more than one point remains,
keep the text up to and including the first point and append what follows
with the points stripped. -/
def sanitizeSpecChars (s : List Char) : List Char :=
  let v := s.filter keepCh
  if 1 < v.count '.' then
    v.takeWhile (fun c => c != '.') ++
      '.' :: ((v.dropWhile (fun c => c != '.')).tail.filter (fun c => c != '.'))
  else v

/-! ## Concrete `parseFloat` evaluations -/

theorem parse_ten : jsParseFloat "10" = .fin 10 := by
  have h : jsParseFloat "10" = .fin (((10 : ℕ) : ℚ) * (10 : ℚ) ^ (0 : ℤ)) := rfl
  rw [h]; simp only [JSNum.fin.injEq]; norm_num

theorem parse_twelve : jsParseFloat "12" = .fin 12 := by
  have h : jsParseFloat "12" = .fin (((12 : ℕ) : ℚ) * (10 : ℚ) ^ (0 : ℤ)) := rfl
  rw [h]; simp only [JSNum.fin.injEq]; norm_num

theorem parse_trailing : jsParseFloat "12abc" = .fin 12 := by
  have h : jsParseFloat "12abc" = .fin (((12 : ℕ) : ℚ) * (10 : ℚ) ^ (0 : ℤ)) := rfl
  rw [h]; simp only [JSNum.fin.injEq]; norm_num

/-! ## Helper lemmas about `splitDot` -/

theorem splitDot_ne_nil (l : List Char) : splitDot l ≠ [] := by
  cases l with
  | nil => simp [splitDot]
  | cons c cs => simp only [splitDot]; split <;> simp

theorem bne_dot_of_beq {c : Char} (h : (c == '.') = true) : (c != '.') = false := by
  simp [bne, h]

theorem bne_dot_of_nbeq {c : Char} (h : (c == '.') = false) : (c != '.') = true := by
  simp [bne, h]

theorem splitDot_headD (l : List Char) :
    (splitDot l).headD [] = l.takeWhile (fun c => c != '.') := by
  induction l with
  | nil => rfl
  | cons c cs ih =>
    cases h : (c == '.') with
    | true => simp [splitDot, h, List.takeWhile_cons, bne_dot_of_beq h]
    | false =>
      simp [splitDot, h, List.takeWhile_cons, bne_dot_of_nbeq h]
      simpa using ih

theorem splitDot_flatten (l : List Char) :
    (splitDot l).flatten = l.filter (fun c => c != '.') := by
  induction l with
  | nil => rfl
  | cons c cs ih =>
    cases h : (c == '.') with
    | true => simp [splitDot, h, List.filter_cons, bne_dot_of_beq h, ih]
    | false =>
      obtain ⟨p, ps, hps⟩ := List.exists_cons_of_ne_nil (splitDot_ne_nil cs)
      rw [hps] at ih
      simp only [splitDot, h, Bool.false_eq_true, if_false, hps, List.headD_cons,
        List.tail_cons, List.flatten_cons, List.filter_cons, bne_dot_of_nbeq h,
        if_true, List.cons_append, List.nil_append]
      rw [← ih]
      simp [List.flatten_cons]

theorem splitDot_tail_flatten (l : List Char) :
    ((splitDot l).tail).flatten
      = ((l.dropWhile (fun c => c != '.')).tail).filter (fun c => c != '.') := by
  induction l with
  | nil => rfl
  | cons c cs ih =>
    cases h : (c == '.') with
    | true => simp [splitDot, h, List.dropWhile_cons, bne_dot_of_beq h, splitDot_flatten]
    | false =>
      obtain ⟨p, ps, hps⟩ := List.exists_cons_of_ne_nil (splitDot_ne_nil cs)
      rw [hps] at ih
      simp [splitDot, h, List.dropWhile_cons, bne_dot_of_nbeq h, hps]
      simpa using ih

theorem splitDot_length (l : List Char) :
    (splitDot l).length = l.count '.' + 1 := by
  induction l with
  | nil => rfl
  | cons c cs ih =>
    cases h : (c == '.') with
    | true => simp [splitDot, h, List.count_cons, ih]
    | false =>
      obtain ⟨p, ps, hps⟩ := List.exists_cons_of_ne_nil (splitDot_ne_nil cs)
      rw [hps] at ih
      simp [splitDot, h, hps, List.count_cons, ← ih]

/-! ## The sanitizer agrees with its specification reading -/

theorem sanitizeChars_eq_spec (s : List Char) : sanitizeChars s = sanitizeSpecChars s := by
  simp only [sanitizeChars, sanitizeSpecChars]
  rw [splitDot_length, splitDot_headD, splitDot_tail_flatten]
  exact if_congr (by omega) rfl rfl

theorem count_dot_sanitizeChars (s : List Char) : (sanitizeChars s).count '.' ≤ 1 := by
  rw [sanitizeChars_eq_spec]
  simp only [sanitizeSpecChars]
  split
  · rw [List.count_append, List.count_cons]
    have h1 : (List.takeWhile (fun c => c != '.') (s.filter keepCh)).count '.' = 0 := by
      rw [List.count_eq_zero]
      intro hmem
      have := List.mem_takeWhile_imp hmem
      simp [bne] at this
    have h2 : ((List.dropWhile (fun c => c != '.') (s.filter keepCh)).tail.filter
        (fun c => c != '.')).count '.' = 0 := by
      rw [List.count_eq_zero]
      intro hmem
      have := List.of_mem_filter hmem
      simp [bne] at this
    simp [h1, h2]
  · next hn =>
    have hh := splitDot_length (s.filter keepCh)
    omega

theorem filter_keep_sanitizeChars (s : List Char) :
    (sanitizeChars s).filter keepCh = sanitizeChars s := by
  rw [List.filter_eq_self]
  intro a ha
  rw [sanitizeChars_eq_spec] at ha
  simp only [sanitizeSpecChars] at ha
  split at ha
  · rcases List.mem_append.mp ha with h | h
    · have hmem : a ∈ s.filter keepCh := List.takeWhile_subset _ h
      exact List.of_mem_filter hmem
    · rcases List.mem_cons.mp h with rfl | h
      · rfl
      · have h1 : a ∈ (List.dropWhile (fun c => c != '.') (s.filter keepCh)).tail :=
          List.mem_of_mem_filter h
        have h2 : a ∈ List.dropWhile (fun c => c != '.') (s.filter keepCh) :=
          List.tail_subset _ h1
        exact List.of_mem_filter (List.dropWhile_subset _ h2)
  · exact List.of_mem_filter ha

theorem sanitizeChars_idem (s : List Char) :
    sanitizeChars (sanitizeChars s) = sanitizeChars s := by
  conv_lhs => rw [sanitizeChars_eq_spec]
  simp only [sanitizeSpecChars]
  rw [filter_keep_sanitizeChars]
  rw [if_neg (Nat.not_lt.mpr (count_dot_sanitizeChars s))]

/-! ## Evaluator helpers -/

/-- A successful evaluation of two finite, positive, in-range parsed values. -/
theorem evaluateNum_fin (qa qc : ℚ) (ha1 : 0 < qa) (ha2 : qa ≤ 100)
    (hc1 : 0 < qc) (hc2 : qc ≤ 100) :
    evaluateNum (.fin qa) (.fin qc)
      = .ok ⟨.fin (qc / qa), .fin (qc - qa), .fin (qc / (11 / 10))⟩ := by
  have k1 : ¬ qa ≤ 0 := not_le.mpr ha1
  have k2 : ¬ qc ≤ 0 := not_le.mpr hc1
  have k3 : ¬ (100 : ℚ) < qa := not_lt.mpr ha2
  have k4 : ¬ (100 : ℚ) < qc := not_lt.mpr hc2
  have k5 : ¬ (11 / 10 : ℚ) = 0 := by norm_num
  simp [evaluateNum, jsIsNaN, jsLeZero, jsGtHundred, jsDiv, jsSub,
    k1, k2, k3, k4, k5, ne_of_gt ha1]

theorem tier_boundary_safe : tierOf (.fin (11 / 10)) = .Safe := by
  simp [tierOf, jsGe]

theorem tier_boundary_warning : tierOf (.fin 1) = .Warning := by
  have h : ¬ (11 / 10 : ℚ) ≤ 1 := by norm_num
  simp [tierOf, jsGe, h]

/-! ## The claims -/

/-- C1: for every pair of parsed input values with `0 < actualLevel ≤ 100`
and `0 < criticalLevel ≤ 100`, `evaluate` succeeds and returns
`safetyFactor = criticalLevel / actualLevel`, `safetyMargin =
criticalLevel - actualLevel`, and `targetLevel = criticalLevel / 1.10`,
the last depending only on `criticalLevel`. -/
theorem evaluate_success (sa sc : String) (qa qc : ℚ)
    (hpa : jsParseFloat sa = .fin qa) (hpc : jsParseFloat sc = .fin qc)
    (ha1 : 0 < qa) (ha2 : qa ≤ 100) (hc1 : 0 < qc) (hc2 : qc ≤ 100) :
    evaluate sa sc = .ok ⟨.fin (qc / qa), .fin (qc - qa), .fin (qc / (11 / 10))⟩ := by
  show evaluateNum (jsParseFloat sa) (jsParseFloat sc) = _
  rw [hpa, hpc]
  exact evaluateNum_fin qa qc ha1 ha2 hc1 hc2

/-- Witness for C1 at `actualLevel = "10"`, `criticalLevel = "12"`. -/
theorem evaluate_success_witness :
    evaluate "10" "12"
      = .ok ⟨.fin ((12 : ℚ) / 10), .fin ((12 : ℚ) - 10), .fin ((12 : ℚ) / (11 / 10))⟩ :=
  evaluate_success "10" "12" 10 12 parse_ten parse_twelve
    (by norm_num) (by norm_num) (by norm_num) (by norm_num)

/-- C2: the tier is a function of `safetyFactor` alone, decided high to
low: `safetyFactor ≥ 1.10` is Safe, else `≥ 1.00` is Warning, else Danger;
`1.10` itself is Safe, `1.00` itself is Warning, and each `safetyFactor`
gets exactly one tier. -/
theorem tier_of_safetyFactor :
    (∀ q : ℚ, (tierOf (.fin q) = .Safe ↔ 11 / 10 ≤ q)
      ∧ (tierOf (.fin q) = .Warning ↔ 1 ≤ q ∧ q < 11 / 10)
      ∧ (tierOf (.fin q) = .Danger ↔ q < 1))
    ∧ tierOf (.fin (11 / 10)) = .Safe ∧ tierOf (.fin 1) = .Warning := by
  refine ⟨fun q => ?_, tier_boundary_safe, tier_boundary_warning⟩
  by_cases h1 : (11 / 10 : ℚ) ≤ q
  · have h2 : ¬ q < 11 / 10 := not_lt.mpr h1
    have h3 : ¬ q < 1 := not_lt.mpr (le_trans (by norm_num) h1)
    simp [tierOf, jsGe, h1, h2, h3]
  · by_cases h2 : (1 : ℚ) ≤ q
    · have h3 : ¬ q < 1 := not_lt.mpr h2
      simp [tierOf, jsGe, h1, h2, h3, not_le.mp h1]
    · have h3 : q < 1 := not_le.mp h2
      have h4 : q < 11 / 10 := lt_of_lt_of_le h3 (by norm_num)
      simp [tierOf, jsGe, h1, h2, h3, h4]

/-- C3: validation runs NotANumber, then NonPositive, then OutOfRange, and
each failure short-circuits: a parse failure yields NotANumber whatever the
other value (in particular `"abc"` with `"150"`), a non-positive parsed
value yields NonPositive even when the other exceeds 100, and OutOfRange
is reported exactly when both values parse, both are positive, and one
exceeds 100. -/
theorem validation_order_short_circuit :
    (∀ sa sc : String, (jsIsNaN (jsParseFloat sa) || jsIsNaN (jsParseFloat sc)) = true →
        evaluate sa sc = .error .NotANumber)
    ∧ evaluate "abc" "150" = .error .NotANumber
    ∧ (∀ a c : JSNum, jsIsNaN a = false → jsIsNaN c = false →
        (jsLeZero a || jsLeZero c) = true → evaluateNum a c = .error .NonPositive)
    ∧ (∀ a c : JSNum, evaluateNum a c = .error .OutOfRange ↔
        (jsIsNaN a = false ∧ jsIsNaN c = false ∧ jsLeZero a = false ∧ jsLeZero c = false
          ∧ (jsGtHundred a || jsGtHundred c) = true)) := by
  refine ⟨fun sa sc h => ?_, rfl, fun a c h1 h2 h3 => ?_, fun a c => ?_⟩
  · show evaluateNum (jsParseFloat sa) (jsParseFloat sc) = _
    simp [evaluateNum, h]
  · simp [evaluateNum, h1, h2, h3]
  · constructor
    · intro h
      by_cases k1 : (jsIsNaN a || jsIsNaN c) = true
      · unfold evaluateNum at h; rw [if_pos k1] at h; simp at h
      by_cases k2 : (jsLeZero a || jsLeZero c) = true
      · unfold evaluateNum at h; rw [if_neg k1, if_pos k2] at h; simp at h
      by_cases k3 : (jsGtHundred a || jsGtHundred c) = true
      · have e1 := k1; have e2 := k2
        simp only [Bool.or_eq_true, not_or, Bool.not_eq_true] at e1 e2
        exact ⟨e1.1, e1.2, e2.1, e2.2, k3⟩
      · unfold evaluateNum at h; rw [if_neg k1, if_neg k2, if_neg k3] at h; simp at h
    · rintro ⟨h1, h2, h3, h4, h5⟩
      simp [evaluateNum, h1, h2, h3, h4, h5]

/-- C4: when any validation check fails, `calculateSafetyFactor` returns
after the alert without computing or rendering anything: the results
section is exactly as it was. -/
theorem failure_leaves_display_unchanged (sa sc : String) (e : VError) (st : UIState)
    (h : evaluate sa sc = .error e) :
    calculateSafetyFactor sa sc st = st := by
  simp [calculateSafetyFactor, h]

/-- Witness for C4 at the failing pair `"abc"`, `"150"`. -/
theorem failure_leaves_display_unchanged_witness :
    calculateSafetyFactor "abc" "150" ⟨none, false⟩ = ⟨none, false⟩ :=
  failure_leaves_display_unchanged "abc" "150" .NotANumber ⟨none, false⟩ rfl

/-- C5: for a valid `criticalLevel`, an `actualLevel` of exactly
`criticalLevel / 1.10` gives `safetyFactor` exactly `1.10` and tier Safe,
and an `actualLevel` equal to `criticalLevel` gives `safetyFactor` exactly
`1.00` and tier Warning. -/
theorem exact_boundary_tiers (qc : ℚ) (h1 : 0 < qc) (h2 : qc ≤ 100) :
    (evaluateNum (.fin (qc / (11 / 10))) (.fin qc)
        = .ok ⟨.fin (11 / 10), .fin (qc - qc / (11 / 10)), .fin (qc / (11 / 10))⟩
      ∧ tierOf (.fin (11 / 10)) = .Safe)
    ∧ (evaluateNum (.fin qc) (.fin qc)
        = .ok ⟨.fin 1, .fin 0, .fin (qc / (11 / 10))⟩
      ∧ tierOf (.fin 1) = .Warning) := by
  have ha1 : 0 < qc / (11 / 10 : ℚ) := by positivity
  have ha2 : qc / (11 / 10 : ℚ) ≤ 100 :=
    le_trans (div_le_self h1.le (by norm_num)) h2
  have hfs : qc / (qc / (11 / 10 : ℚ)) = 11 / 10 := by
    rw [div_div_eq_mul_div, mul_comm, mul_div_assoc, div_self h1.ne', mul_one]
  refine ⟨⟨?_, tier_boundary_safe⟩, ⟨?_, tier_boundary_warning⟩⟩
  · rw [evaluateNum_fin _ qc ha1 ha2 h1 h2, hfs]
  · rw [evaluateNum_fin qc qc h1 h2 h1 h2, div_self h1.ne', sub_self]

/-- Witness for C5 at `criticalLevel = 11`. -/
theorem exact_boundary_tiers_witness :
    (evaluateNum (.fin ((11 : ℚ) / (11 / 10))) (.fin 11)
        = .ok ⟨.fin (11 / 10), .fin ((11 : ℚ) - 11 / (11 / 10)), .fin ((11 : ℚ) / (11 / 10))⟩
      ∧ tierOf (.fin (11 / 10)) = .Safe)
    ∧ (evaluateNum (.fin (11 : ℚ)) (.fin 11)
        = .ok ⟨.fin 1, .fin 0, .fin ((11 : ℚ) / (11 / 10))⟩
      ∧ tierOf (.fin 1) = .Warning) :=
  exact_boundary_tiers 11 (by norm_num) (by norm_num)

/-- C6: the sanitizer removes every character outside `[0-9.]`, then, when
more than one point remains, keeps the text up to and including the first
point and appends the remaining digit groups with their points stripped;
in particular `sanitize "12.3.4.5" = "12.345"`, and it is total. -/
theorem sanitizer_spec_and_example :
    (∀ s : List Char, sanitizeChars s = sanitizeSpecChars s)
      ∧ sanitize "12.3.4.5" = "12.345" :=
  ⟨sanitizeChars_eq_spec, by decide⟩

/-- C7: the sanitizer is idempotent on every string. -/
theorem sanitize_idempotent : ∀ s : String, sanitize (sanitize s) = sanitize s :=
  fun s => congrArg String.mk (sanitizeChars_idem s.data)

/-- C8: holding a valid `criticalLevel` fixed, decreasing the (valid)
`actualLevel` never decreases the safety factor the evaluator returns. -/
theorem safetyFactor_monotone (qc a1 a2 : ℚ) (hc1 : 0 < qc) (hc2 : qc ≤ 100)
    (h2 : 0 < a2) (h21 : a2 < a1) (h1 : a1 ≤ 100) :
    qc / a1 ≤ qc / a2
    ∧ (evaluateNum (.fin a1) (.fin qc)).map EvalResult.safetyFactor = .ok (.fin (qc / a1))
    ∧ (evaluateNum (.fin a2) (.fin qc)).map EvalResult.safetyFactor = .ok (.fin (qc / a2)) := by
  refine ⟨?_, ?_, ?_⟩
  · exact div_le_div_of_nonneg_left hc1.le h2 h21.le
  · rw [evaluateNum_fin a1 qc (lt_trans h2 h21) h1 hc1 hc2]; rfl
  · rw [evaluateNum_fin a2 qc h2 (le_trans h21.le h1) hc1 hc2]; rfl

/-- Witness for C8 at `criticalLevel = 12`, actual levels `12 > 10`. -/
theorem safetyFactor_monotone_witness :
    (12 : ℚ) / 12 ≤ (12 : ℚ) / 10
    ∧ (evaluateNum (.fin 12) (.fin 12)).map EvalResult.safetyFactor
        = .ok (.fin ((12 : ℚ) / 12))
    ∧ (evaluateNum (.fin 10) (.fin 12)).map EvalResult.safetyFactor
        = .ok (.fin ((12 : ℚ) / 10)) :=
  safetyFactor_monotone 12 12 10 (by norm_num) (by norm_num)
    (by norm_num) (by norm_num) (by norm_num)

/-- C9: an input with a valid numeric prefix and trailing non-numeric
characters, such as `"12abc"`, is not rejected as NotANumber: it parses to
the prefix `12` and the whole evaluation behaves as if `"12"` had been
entered. -/
theorem trailing_characters_lenient :
    jsParseFloat "12abc" = .fin 12
    ∧ (∀ sc : String, evaluate "12abc" sc = evaluate "12" sc)
    ∧ evaluate "12abc" "12" = .ok ⟨.fin 1, .fin 0, .fin ((12 : ℚ) / (11 / 10))⟩ := by
  have h : jsParseFloat "12abc" = jsParseFloat "12" := rfl
  refine ⟨parse_trailing, fun sc => ?_, ?_⟩
  · show evaluateNum (jsParseFloat "12abc") (jsParseFloat sc)
        = evaluateNum (jsParseFloat "12") (jsParseFloat sc)
    rw [h]
  · show evaluateNum (jsParseFloat "12abc") (jsParseFloat "12") = _
    rw [h, parse_twelve, evaluateNum_fin 12 12 (by norm_num) (by norm_num)
      (by norm_num) (by norm_num)]
    norm_num

/-- C10: `"Infinity"` parses to positive Infinity, which passes the
NotANumber and NonPositive checks and is rejected by the `> 100` check as
OutOfRange; consequently both parsed values of any evaluation that reaches
the computation step are finite. -/
theorem infinity_out_of_range :
    jsParseFloat "Infinity" = .inf
    ∧ jsIsNaN .inf = false ∧ jsLeZero .inf = false ∧ jsGtHundred .inf = true
    ∧ (∀ (sc : String) (qc : ℚ), jsParseFloat sc = .fin qc → 0 < qc →
        evaluate "Infinity" sc = .error .OutOfRange)
    ∧ (∀ (a c : JSNum) (r : EvalResult), evaluateNum a c = .ok r →
        (∃ qa, a = .fin qa) ∧ (∃ qc, c = .fin qc)) := by
  refine ⟨rfl, rfl, rfl, rfl, fun sc qc hp hpos => ?_, fun a c r h => ?_⟩
  · have hq : ¬ qc ≤ 0 := not_le.mpr hpos
    show evaluateNum (jsParseFloat "Infinity") (jsParseFloat sc) = _
    rw [show jsParseFloat "Infinity" = .inf from rfl, hp]
    simp [evaluateNum, jsIsNaN, jsLeZero, jsGtHundred, hq]
  · by_cases k1 : (jsIsNaN a || jsIsNaN c) = true
    · unfold evaluateNum at h; rw [if_pos k1] at h; simp at h
    by_cases k2 : (jsLeZero a || jsLeZero c) = true
    · unfold evaluateNum at h; rw [if_neg k1, if_pos k2] at h; simp at h
    by_cases k3 : (jsGtHundred a || jsGtHundred c) = true
    · unfold evaluateNum at h; rw [if_neg k1, if_neg k2, if_pos k3] at h; simp at h
    have e1 := k1; have e2 := k2; have e3 := k3
    simp only [Bool.or_eq_true, not_or, Bool.not_eq_true] at e1 e2 e3
    constructor
    · cases a with
      | nan => simp [jsIsNaN] at e1
      | inf => simp [jsGtHundred] at e3
      | neginf => simp [jsLeZero] at e2
      | fin q => exact ⟨q, rfl⟩
    · cases c with
      | nan => simp [jsIsNaN] at e1
      | inf => simp [jsGtHundred] at e3
      | neginf => simp [jsLeZero] at e2
      | fin q => exact ⟨q, rfl⟩

end WebsiteIdea
